import Mathlib

/-!
Verification development for the `uptimer` monitoring bot.

The Python sources are shallowly embedded:

* `src/uptime_tracker.py` — the SQLite-backed uptime store becomes a list of
  `UptimeRecord`s; `INSERT OR REPLACE` under the `UNIQUE(hostname, timestamp)`
  constraint becomes a filter-then-append upsert; SQL `WHERE`/`ORDER BY`
  become list filtering and an insertion sort; Python's floor division `//`
  becomes `Int.fdiv`.
* `src/bot.py` — the per-host status cache of `MonitorBot._get_status`
  becomes an explicit optional cache entry threaded through the call; the
  blocking probe is a parameter (its result is external input).
* `src/config.py` — host validation becomes a structural recursion over the
  entry list, with Python string/None truthiness made explicit.
* `src/monitor.py` / `src/ssh_client.py` — the SSH client becomes a small
  state record (is the underlying client object still allocated, what is the
  captured `last_error`); network outcomes and remote command results are
  parameters.
-/

namespace Uptimer

/-! ### Hour buckets (src/uptime_tracker.py) -/

/-- Python floor division `a // b` (`Int.fdiv` is floor division). -/
def pyFloorDiv (a b : Int) : Int := Int.fdiv a b

/-- The hour bucket computed in `UptimeTracker.record_status`
(src/uptime_tracker.py line 54): `(current_time // 3600) * 3600`. -/
def recordHourBucket (current_time : Int) : Int :=
  pyFloorDiv current_time 3600 * 3600

/-- The hour bucket computed in `UptimeTracker.get_uptime_emoji`
(src/uptime_tracker.py line 127), as a function of the shifted time
`current_time - hour_offset * 3600` it is applied to:
`(t // 3600) * 3600`. -/
def renderHourBucket (t : Int) : Int :=
  pyFloorDiv t 3600 * 3600

/-- Rewriting `recordHourBucket` with Euclidean division (the divisor 3600 is
positive, so floor division and Euclidean division agree); this is the form
`omega` can reason about. -/
theorem recordHourBucket_eq_ediv (t : Int) :
    recordHourBucket t = t / 3600 * 3600 := by
  unfold recordHourBucket pyFloorDiv
  rw [Int.fdiv_eq_ediv t (by norm_num)]

theorem renderHourBucket_eq_ediv (t : Int) :
    renderHourBucket t = t / 3600 * 3600 := by
  unfold renderHourBucket pyFloorDiv
  rw [Int.fdiv_eq_ediv t (by norm_num)]

/-! ### The uptime store (src/uptime_tracker.py)

A database row of `uptime_history` is `(hostname, timestamp, status)`; the
`id` column is never read by the program, and `status` is stored as the
integer `1 if status else 0`, so it is modelled by a `Bool`. -/

/-- One row of the `uptime_history` table. -/
structure UptimeRecord where
  hostname : String
  timestamp : Int
  status : Bool
deriving DecidableEq, Repr

/-- The store: the multiset of rows, modelled as a list. -/
abbrev Store := List UptimeRecord

/-- Two rows collide on the `UNIQUE(hostname, timestamp)` constraint. -/
def sameKey (a b : UptimeRecord) : Bool :=
  a.hostname == b.hostname && a.timestamp == b.timestamp

/-- Upsert: `INSERT OR REPLACE` under `UNIQUE(hostname, timestamp)`: delete any row
with the same key, then insert the new row. -/
def insertOrReplace (s : Store) (r : UptimeRecord) : Store :=
  s.filter (fun q => !sameKey q r) ++ [r]

/-- Embeds `UptimeTracker.record_status` (src/uptime_tracker.py lines 44-68):
bucket the current time to the hour and upsert `(hostname, bucket, status)`. -/
def record_status (s : Store) (hostname : String) (status : Bool)
    (current_time : Int) : Store :=
  insertOrReplace s ⟨hostname, recordHourBucket current_time, status⟩

/-- A sequence of `record_status` calls, each `(hostname, status, time)`. -/
def applyCalls (s : Store) (calls : List (String × Bool × Int)) : Store :=
  calls.foldl (fun st c => record_status st c.1 c.2.1 c.2.2) s

/-- The database invariant: at most one row per `(hostname, timestamp)` key
(the `UNIQUE` constraint). -/
def KeyUnique (s : Store) : Prop :=
  s.Pairwise (fun a b => ¬(a.hostname = b.hostname ∧ a.timestamp = b.timestamp))

instance : DecidablePred KeyUnique := fun s => by
  unfold KeyUnique
  infer_instance

/-- The rows of `s` holding the key `(h, b)`. -/
def rowsFor (s : Store) (h : String) (b : Int) : Store :=
  s.filter (fun r => r.hostname == h && r.timestamp == b)

/-- Embeds `UptimeTracker.get_history` (src/uptime_tracker.py lines 70-97):
`SELECT timestamp, status WHERE hostname = ? AND timestamp >= now - hours*3600
ORDER BY timestamp ASC`. The sort is an insertion sort on the timestamp. -/
def insertAsc (p : Int × Bool) : List (Int × Bool) → List (Int × Bool)
  | [] => [p]
  | q :: rest => if p.1 ≤ q.1 then p :: q :: rest else q :: insertAsc p rest

def orderByTimestampAsc (l : List (Int × Bool)) : List (Int × Bool) :=
  l.foldr insertAsc []

def get_history (s : Store) (hostname : String) (hours : Nat)
    (current_time : Int) : List (Int × Bool) :=
  orderByTimestampAsc
    ((s.filter (fun r => r.hostname == hostname &&
        current_time - (hours : Int) * 3600 ≤ r.timestamp)).map
      (fun r => (r.timestamp, r.status)))

/-- Tri-state rendering symbol: 🟩 / 🟥 / ⬜ in the source. -/
inductive Tri where
  | up
  | down
  | unknown
deriving DecidableEq, Repr

/-- Lookup in the Python dict `{ts: status for ts, status in history}`:
for duplicate keys the comprehension keeps the last pair, so look from the
end of the list. -/
def dictLookup (l : List (Int × Bool)) (ts : Int) : Option Bool :=
  (l.reverse.find? (fun p => p.1 == ts)).map (fun p => p.2)

/-- The bucket of display slot `i` (oldest first) in
`UptimeTracker.get_uptime_emoji`: `hour_offset = hours - i - 1` and
`hour_timestamp = ((current_time - hour_offset * 3600) // 3600) * 3600`. -/
def slotTimestamp (current_time : Int) (hours : Nat) (i : Nat) : Int :=
  renderHourBucket (current_time - ((hours : Int) - (i : Int) - 1) * 3600)

/-- Embeds `UptimeTracker.get_uptime_emoji` (src/uptime_tracker.py lines 99-137):
empty output when `get_history` returns no rows, otherwise one symbol per
hour slot, oldest first, looked up in the history dict. -/
def get_uptime_emoji (s : Store) (hostname : String) (hours : Nat)
    (current_time : Int) : List Tri :=
  if (get_history s hostname hours current_time).isEmpty then []
  else
    (List.range hours).map (fun i =>
      match dictLookup (get_history s hostname hours current_time)
          (slotTimestamp current_time hours i) with
      | some status => if status then Tri.up else Tri.down
      | none => Tri.unknown)

/-- Embeds `UptimeTracker.cleanup_old_records` (src/uptime_tracker.py lines 139-160):
`DELETE WHERE timestamp < now - days*24*3600`, returning the remaining store
and the number of deleted rows (`cursor.rowcount`). -/
def cleanup_old_records (s : Store) (days : Int) (current_time : Int) :
    Store × Nat :=
  let cutoff_time := current_time - days * 24 * 3600
  (s.filter (fun r => !(r.timestamp < cutoff_time)),
   (s.filter (fun r => r.timestamp < cutoff_time)).length)

/-! ### Host configuration validation (src/config.py) -/

/-- One entry of `hosts.json`. Each field is `none` when the key is absent in
the JSON object (`host.get(...)` returns `None`). -/
structure HostEntry where
  name : Option String
  ip : Option String
  ssh_user : Option String
  ssh_key_path : Option String
  ssh_password : Option String
deriving DecidableEq, Repr

/-- Python truthiness of an optional string: `None` and `""` are falsy. -/
def truthy : Option String → Bool
  | none => false
  | some s => !s.isEmpty

/-- The loop body of `Config._validate_hosts` (src/config.py lines 58-80):
drop an entry when a required field is falsy, when its name was already
accepted, or when it has neither auth method; otherwise accept it and
remember its name. -/
def validateGo : List HostEntry → List String → List HostEntry
  | [], _ => []
  | host :: rest, seen_names =>
    if !truthy host.name || !truthy host.ip || !truthy host.ssh_user then
      validateGo rest seen_names
    else if seen_names.contains (host.name.getD ("")) then
      validateGo rest seen_names
    else if !truthy host.ssh_key_path && !truthy host.ssh_password then
      validateGo rest seen_names
    else
      host :: validateGo rest (host.name.getD ("") :: seen_names)

/-- Embeds `Config._validate_hosts`: validate entries in order, starting from an
empty `seen_names` set. -/
def validate_hosts (hosts : List HostEntry) : List HostEntry :=
  validateGo hosts []

/-- An entry passes every per-entry check of `Config._validate_hosts`
(required fields present and non-empty, at least one auth method). -/
def entryOk (host : HostEntry) : Bool :=
  truthy host.name && truthy host.ip && truthy host.ssh_user &&
    (truthy host.ssh_key_path || truthy host.ssh_password)

/-! ### The status cache (src/bot.py)

`MonitorBot._get_status` keeps `self.status_cache[hostname] =
{"info": info, "timestamp": now}`. The cache for one host is an optional
entry; the monitor's blocking probe result is passed as a parameter, and the
model additionally reports whether the probe was invoked. -/

/-- A metrics snapshot as assembled by the monitors: one display string per
field, plus the literal `online: True`. -/
structure SysInfo where
  hostname : String
  ip : String
  cpu_model : String
  cpu_usage : String
  ram_total : String
  ram_used : String
  disk_total : String
  disk_usage : String
  process_count : String
  load_average : String
  online : Bool
deriving DecidableEq, Repr

/-- One value of `self.status_cache[hostname]`: the cached probe result
(`none` models Python `None`, the offline marker) and its capture time. The
stored dict is non-empty, hence always truthy in Python, even when `info`
is `None`. -/
structure CacheEntry where
  info : Option SysInfo
  timestamp : Int
deriving DecidableEq, Repr

/-- Embeds `MonitorBot._get_status` (src/bot.py lines 187-195) for one host.
Inputs: the current cache entry for the host (`none` when the key is
absent), the current time, the `refresh` flag, the result the monitor's
`get_system_info` would return if invoked, and the freshness bound
`Config.UPDATE_INTERVAL`. Output: the returned info, the new cache entry,
and whether the monitor was invoked. -/
def getStatus (cached : Option CacheEntry) (now : Int) (refresh : Bool)
    (probe : Option SysInfo) (update_interval : Int) :
    Option SysInfo × CacheEntry × Bool :=
  match cached with
  | some c =>
    if !refresh && (now - c.timestamp < update_interval) then
      (c.info, c, false)
    else
      (probe, ⟨probe, now⟩, true)
  | none => (probe, ⟨probe, now⟩, true)

/-! ### SSH client and monitors (src/ssh_client.py, src/monitor.py) -/

/-- Outcome of `paramiko` connecting, abstracted: success, or a failure
whose diagnostic string `SSHClient.connect` captures (key-load failure,
`AuthenticationException` → "Authentication failed", `SSHException`,
timeout, ...). -/
inductive ConnectOutcome where
  | ok
  | fail (diag : String)
deriving DecidableEq, Repr

/-- The observable state of an `SSHClient` wrapper object:
whether `self.client` still holds a (possibly connected) paramiko client
object, and the captured `self.last_error`. -/
structure SSHState where
  client : Bool
  last_error : Option String
deriving DecidableEq, Repr

/-- A freshly constructed `SSHClient` (src/ssh_client.py lines 15-43):
`self.client = None`, `self.last_error = None`. -/
def sshInit : SSHState := { client := false, last_error := none }

/-- Embeds `SSHClient.connect` (src/ssh_client.py lines 45-116): it first assigns
`self.client = paramiko.SSHClient()` (line 54), then attempts the
connection; on success it returns `True`, on any failure it records the
diagnostic in `self.last_error` and returns `False` — in either case
`self.client` remains set. -/
def sshConnect (_st : SSHState) (outcome : ConnectOutcome) : Bool × SSHState :=
  match outcome with
  | .ok => (true, { client := true, last_error := none })
  | .fail diag => (false, { client := true, last_error := some diag })

/-- Embeds `SSHClient.close` (src/ssh_client.py lines 149-153): close and clear
`self.client` when it is set. -/
def sshClose (st : SSHState) : SSHState := { st with client := false }

/-- The result of `SSHClient.execute_command`: `(success, output)`. -/
structure CmdResult where
  success : Bool
  output : String
deriving DecidableEq, Repr

/-- The remote command results a `ServerMonitor.get_system_info` call would
observe, one per metric field. The numeric parse-and-format steps of
`_get_cpu_usage` (Python `float`) and `_get_process_count` (Python `int`)
are abstracted as optional pre-formatted strings (`none` = the parse raised
`ValueError`). -/
structure RemoteCmds where
  cpu_model : CmdResult
  cpu_usage : CmdResult
  cpu_usage_parsed : Option String
  ram_total : CmdResult
  ram_used : CmdResult
  disk_total : CmdResult
  disk_usage : CmdResult
  process_count : CmdResult
  process_count_parsed : Option String
  load_average : CmdResult
deriving DecidableEq, Repr

/-- The shared shape of the simple remote getters
(`_get_cpu_model`, `_get_ram_total`, ...): `if success and output:` return
`output.strip()`, else the fallback. -/
def remoteField (r : CmdResult) (fallback : String) : String :=
  if r.success && !r.output.isEmpty then r.output.trim else fallback

/-- Embeds `ServerMonitor._get_cpu_usage` and `_get_process_count`: as `remoteField`
but additionally requiring the numeric parse to succeed. -/
def remoteParsedField (r : CmdResult) (parsed : Option String)
    (fallback : String) : String :=
  if r.success && !r.output.isEmpty then
    match parsed with
    | some v => v
    | none => fallback
  else fallback

/-- The identity fields of a `ServerMonitor` (src/monitor.py lines 15-27).
The class stores no `last_error` attribute — `SSHClient.last_error` lives on
the per-call client object it discards. -/
structure ServerMonitor where
  name : String
  ip : String
  ssh_user : String
  ssh_key_path : Option String
  ssh_password : Option String
deriving DecidableEq, Repr

/-- What `getattr(monitor, "last_error", None)` (src/bot.py line 97) yields
for a `ServerMonitor`: the class never defines nor assigns `last_error`, so
the `getattr` default `None` is always returned. -/
def ServerMonitor.lastErrorAttr (_m : ServerMonitor) : Option String := none

/-- Embeds `ServerMonitor.get_system_info` (src/monitor.py lines 29-58): construct
an `SSHClient`, connect; on failure return `None` (without closing); on
success gather the fields in a `try` block and close in `finally`.
Returns the info (or `None`) together with the final state of the call's
`SSHClient`. -/
def ServerMonitor.get_system_info (m : ServerMonitor)
    (outcome : ConnectOutcome) (cmds : RemoteCmds) :
    Option SysInfo × SSHState :=
  let ssh := sshInit
  let (ok, ssh) := sshConnect ssh outcome
  if !ok then
    (none, ssh)
  else
    let info : SysInfo :=
      { hostname := m.name
        ip := m.ip
        cpu_model := remoteField cmds.cpu_model ("Unknown")
        cpu_usage := remoteParsedField cmds.cpu_usage cmds.cpu_usage_parsed ("N/A")
        ram_total := remoteField cmds.ram_total ("N/A")
        ram_used := remoteField cmds.ram_used ("N/A")
        disk_total := remoteField cmds.disk_total ("N/A")
        disk_usage := remoteField cmds.disk_usage ("N/A")
        process_count := remoteParsedField cmds.process_count cmds.process_count_parsed ("N/A")
        load_average := remoteField cmds.load_average ("N/A")
        online := true }
    (some info, sshClose ssh)

/-- Embeds `ServerMonitor.check_online` (src/monitor.py lines 139-149): construct
an `SSHClient`, connect, close unconditionally, return the connect result. -/
def ServerMonitor.check_online (_m : ServerMonitor)
    (outcome : ConnectOutcome) : Bool × SSHState :=
  let ssh := sshInit
  let (result, ssh) := sshConnect ssh outcome
  (result, sshClose ssh)

/-- The raw results the local OS facilities would yield inside
`LocalMonitor`'s per-field helpers, one per metric field; `none` models the
helper's `try` body raising (the psutil / subprocess / parsing work inside
each helper is abstracted as the display string it would produce). -/
structure LocalRaw where
  cpu_model : Option String
  cpu_usage : Option String
  ram_total : Option String
  ram_used : Option String
  disk_total : Option String
  disk_usage : Option String
  process_count : Option String
  load_average : Option String
deriving DecidableEq, Repr

/-- The shared shape of `LocalMonitor`'s per-field helpers
(src/monitor.py lines 193-271): each wraps its extraction in
`try ... except: return fallback`. -/
def localField (raw : Option String) (fallback : String) : String :=
  match raw with
  | some v => v
  | none => fallback

/-- Embeds `LocalMonitor.get_system_info` (src/monitor.py lines 167-191): assemble
the snapshot from the per-field helpers; every helper catches its own
failures, so the assembly itself always succeeds. -/
def LocalMonitor.get_system_info (name ip : String) (raw : LocalRaw) :
    Option SysInfo :=
  some
    { hostname := name
      ip := ip
      cpu_model := localField raw.cpu_model ("Unknown")
      cpu_usage := localField raw.cpu_usage ("N/A")
      ram_total := localField raw.ram_total ("N/A")
      ram_used := localField raw.ram_used ("N/A")
      disk_total := localField raw.disk_total ("N/A")
      disk_usage := localField raw.disk_usage ("N/A")
      process_count := localField raw.process_count ("N/A")
      load_average := localField raw.load_average ("N/A")
      online := true }

/-- Embeds `LocalMonitor.check_online` (src/monitor.py lines 281-288):
unconditionally `True`. -/
def LocalMonitor.check_online : Bool := true

/-! ## Helper lemmas -/

theorem filter_filter_not_eq_nil {α : Type} (l : List α) (p : α → Bool) :
    (l.filter (fun a => !p a)).filter p = [] := by
  rw [List.filter_filter, List.filter_eq_nil_iff]
  intro a _
  simp

theorem keyUnique_of_mem {s : Store} (hku : KeyUnique s) {a b : UptimeRecord}
    (ha : a ∈ s) (hb : b ∈ s) (hh : a.hostname = b.hostname)
    (ht : a.timestamp = b.timestamp) : a = b := by
  by_contra hne
  have hsymm : Symmetric
      (fun a b : UptimeRecord =>
        ¬(a.hostname = b.hostname ∧ a.timestamp = b.timestamp)) := by
    intro x y hxy hyx
    exact hxy ⟨hyx.1.symm, hyx.2.symm⟩
  exact (hku.forall hsymm) ha hb hne ⟨hh, ht⟩

theorem rowsFor_insertOrReplace (s : Store) (r : UptimeRecord) :
    rowsFor (insertOrReplace s r) r.hostname r.timestamp = [r] := by
  unfold rowsFor insertOrReplace
  rw [List.filter_append]
  have h1 : (s.filter (fun q => !sameKey q r)).filter
      (fun q => q.hostname == r.hostname && q.timestamp == r.timestamp) = [] := by
    have h0 := filter_filter_not_eq_nil s (fun q => sameKey q r)
    simp only [sameKey] at h0
    exact h0
  rw [h1]
  simp

theorem keyUnique_insertOrReplace {s : Store} (hku : KeyUnique s)
    (r : UptimeRecord) : KeyUnique (insertOrReplace s r) := by
  unfold KeyUnique insertOrReplace
  rw [List.pairwise_append]
  refine ⟨hku.sublist (List.filter_sublist s), List.pairwise_singleton _ _, ?_⟩
  intro a ha b hb
  rw [List.mem_filter] at ha
  rw [List.mem_singleton] at hb
  subst hb
  have := ha.2
  simp only [sameKey, Bool.not_eq_true', Bool.and_eq_false_iff, beq_eq_false_iff_ne,
    ne_eq] at this
  rintro ⟨h1, h2⟩
  rcases this with h | h
  · exact h h1
  · exact h h2

theorem keyUnique_record_status {s : Store} (hku : KeyUnique s)
    (hostname : String) (status : Bool) (t : Int) :
    KeyUnique (record_status s hostname status t) :=
  keyUnique_insertOrReplace hku _

theorem keyUnique_applyCalls {s : Store} (hku : KeyUnique s)
    (calls : List (String × Bool × Int)) : KeyUnique (applyCalls s calls) := by
  induction calls generalizing s with
  | nil => exact hku
  | cons c rest ih => exact ih (keyUnique_record_status hku c.1 c.2.1 c.2.2)

theorem rowsFor_record_status (s : Store) (hostname : String) (status : Bool)
    (t : Int) :
    rowsFor (record_status s hostname status t) hostname (recordHourBucket t) =
      [⟨hostname, recordHourBucket t, status⟩] :=
  rowsFor_insertOrReplace s ⟨hostname, recordHourBucket t, status⟩

/-! ## Claims C1, C3, C4 -/

/-- C1: `record_status(h, true)` then `record_status(h, false)` within the
same hour bucket leaves exactly one row for `(h, bucket)`, with status
`false`; a single `record_status` call always leaves exactly one row for its
key, holding the latest observation's status; and every sequence of
`record_status` calls preserves the at-most-one-row-per-key invariant. -/
theorem record_status_upsert_invariant (s : Store) (h : String) (n1 n2 : Int)
    (hb : recordHourBucket n1 = recordHourBucket n2) :
    rowsFor (record_status (record_status s h true n1) h false n2) h
        (recordHourBucket n1) = [⟨h, recordHourBucket n2, false⟩] ∧
    (∀ (s' : Store) (h' : String) (st : Bool) (t : Int),
      rowsFor (record_status s' h' st t) h' (recordHourBucket t) =
        [⟨h', recordHourBucket t, st⟩]) ∧
    (∀ calls : List (String × Bool × Int), KeyUnique s →
      KeyUnique (applyCalls s calls)) := by
  refine ⟨?_, ?_, ?_⟩
  · rw [hb]
    exact rowsFor_record_status (record_status s h true n1) h false n2
  · intro s' h' st t
    exact rowsFor_record_status s' h' st t
  · intro calls hku
    exact keyUnique_applyCalls hku calls

/-- Witness for C1 at concrete inputs: two observations at 7210 s and
7220 s share the hour bucket 7200, and the store afterwards holds exactly
the row `("a", 7200, false)` for that key. -/
theorem record_status_upsert_invariant_witness :
    recordHourBucket 7210 = recordHourBucket 7220 ∧
    rowsFor
        (record_status (record_status [⟨"b", 0, true⟩] "a" true 7210) "a"
          false 7220) "a" (recordHourBucket 7210) =
      [⟨"a", recordHourBucket 7220, false⟩] :=
  ⟨by decide,
    (record_status_upsert_invariant [⟨"b", 0, true⟩] "a" 7210 7220
      (by decide)).1⟩

/-- C3: the hour bucket computed when recording equals
`floor(t/3600)*3600`, bucketing is idempotent, and the bucket function used
by `record_status` and the one used by the renderer agree on every input
timestamp. -/
theorem hour_bucket_floor_idempotent (t : Int) :
    recordHourBucket t = ⌊(t : ℚ) / 3600⌋ * 3600 ∧
    recordHourBucket (recordHourBucket t) = recordHourBucket t ∧
    recordHourBucket t = renderHourBucket t := by
  refine ⟨?_, ?_, ?_⟩
  · rw [recordHourBucket_eq_ediv]
    have h := Rat.floor_intCast_div_natCast t 3600
    push_cast at h
    rw [h]
  · rw [recordHourBucket_eq_ediv, recordHourBucket_eq_ediv]
    omega
  · rfl

/-- C4: `cleanup_old_records` keeps a row iff it was in the store and its
bucket is not below `now - days*86400`; a row exactly at the boundary is
retained; the returned count is the number of rows below the cutoff, and
count plus survivors equals the original size. -/
theorem cleanup_old_records_correct (s : Store) (days current_time : Int) :
    (∀ r : UptimeRecord,
        r ∈ (cleanup_old_records s days current_time).1 ↔
          r ∈ s ∧ ¬(r.timestamp < current_time - days * 86400)) ∧
    (∀ r : UptimeRecord, r ∈ s →
        r.timestamp = current_time - days * 86400 →
        r ∈ (cleanup_old_records s days current_time).1) ∧
    (cleanup_old_records s days current_time).2 =
      (s.filter
        (fun r => decide (r.timestamp < current_time - days * 86400))).length ∧
    (cleanup_old_records s days current_time).2 +
        (cleanup_old_records s days current_time).1.length = s.length := by
  have hcut : current_time - days * 24 * 3600 = current_time - days * 86400 := by
    ring_nf
  refine ⟨?_, ?_, ?_, ?_⟩
  · intro r
    unfold cleanup_old_records
    simp only [List.mem_filter, hcut]
    constructor
    · rintro ⟨hr, hp⟩
      refine ⟨hr, ?_⟩
      simpa using hp
    · rintro ⟨hr, hp⟩
      refine ⟨hr, ?_⟩
      simpa using hp
  · intro r hr hb
    unfold cleanup_old_records
    simp only [List.mem_filter, hcut]
    refine ⟨hr, ?_⟩
    simp [hb]
  · unfold cleanup_old_records
    simp only [hcut]
  · unfold cleanup_old_records
    simp only [hcut]
    have := List.length_eq_length_filter_add
      (l := s) (fun r => decide (r.timestamp < current_time - days * 86400))
    omega

/-- Witness for C4 at concrete inputs: with `now = 100 + 7*86400` and
`days = 7`, the boundary row at bucket 100 is retained. -/
theorem cleanup_old_records_correct_witness :
    (⟨"a", 100, true⟩ : UptimeRecord) ∈
        ([⟨"a", 100, true⟩, ⟨"a", 0, false⟩] : Store) ∧
    (100 : Int) = (100 + 7 * 86400) - 7 * 86400 ∧
    (⟨"a", 100, true⟩ : UptimeRecord) ∈
      (cleanup_old_records [⟨"a", 100, true⟩, ⟨"a", 0, false⟩] 7
        (100 + 7 * 86400)).1 :=
  ⟨by decide, by decide,
    (cleanup_old_records_correct [⟨"a", 100, true⟩, ⟨"a", 0, false⟩] 7
      (100 + 7 * 86400)).2.1 ⟨"a", 100, true⟩ (by decide) (by decide)⟩

/-! ## Claim C2: window rendering -/

theorem mem_insertAsc (p x : Int × Bool) (l : List (Int × Bool)) :
    x ∈ insertAsc p l ↔ x = p ∨ x ∈ l := by
  induction l with
  | nil => simp [insertAsc]
  | cons q rest ih =>
    simp only [insertAsc]
    by_cases hle : p.1 ≤ q.1
    · simp [hle]
    · simp only [hle, if_false, List.mem_cons, ih]
      tauto

theorem mem_orderByTimestampAsc (x : Int × Bool) (l : List (Int × Bool)) :
    x ∈ orderByTimestampAsc l ↔ x ∈ l := by
  induction l with
  | nil => simp [orderByTimestampAsc]
  | cons q rest ih =>
    show x ∈ insertAsc q (orderByTimestampAsc rest) ↔ _
    rw [mem_insertAsc]
    simp [ih]

theorem length_insertAsc (p : Int × Bool) (l : List (Int × Bool)) :
    (insertAsc p l).length = l.length + 1 := by
  induction l with
  | nil => rfl
  | cons q rest ih =>
    simp only [insertAsc]
    by_cases hle : p.1 ≤ q.1
    · simp [hle]
    · simp only [hle, if_false, List.length_cons, ih]

theorem length_orderByTimestampAsc (l : List (Int × Bool)) :
    (orderByTimestampAsc l).length = l.length := by
  induction l with
  | nil => rfl
  | cons q rest ih =>
    show (insertAsc q (orderByTimestampAsc rest)).length = _
    rw [length_insertAsc, ih, List.length_cons]

theorem mem_get_history (s : Store) (h : String) (hours : Nat) (now : Int)
    (ts : Int) (st : Bool) :
    (ts, st) ∈ get_history s h hours now ↔
      (⟨h, ts, st⟩ : UptimeRecord) ∈ s ∧ now - (hours : Int) * 3600 ≤ ts := by
  unfold get_history
  rw [mem_orderByTimestampAsc]
  simp only [List.mem_map, List.mem_filter, Bool.and_eq_true, beq_iff_eq,
    decide_eq_true_eq, Prod.mk.injEq]
  constructor
  · rintro ⟨r, ⟨hrs, hrh, hrw⟩, hts, hst⟩
    cases r
    subst hrh hts hst
    exact ⟨hrs, hrw⟩
  · rintro ⟨hmem, hwin⟩
    exact ⟨⟨h, ts, st⟩, ⟨hmem, rfl, hwin⟩, rfl, rfl⟩

theorem get_history_eq_nil_iff (s : Store) (h : String) (hours : Nat)
    (now : Int) :
    get_history s h hours now = [] ↔
      ¬∃ r, r ∈ s ∧ r.hostname = h ∧
        now - (hours : Int) * 3600 ≤ r.timestamp := by
  constructor
  · rintro hnil ⟨r, hr, hrh, hrw⟩
    have hmem : (r.timestamp, r.status) ∈ get_history s h hours now := by
      rw [mem_get_history]
      refine ⟨?_, hrw⟩
      cases r
      subst hrh
      exact hr
    rw [hnil] at hmem
    exact List.not_mem_nil _ hmem
  · intro hnone
    unfold get_history
    have hfil : s.filter (fun r => r.hostname == h &&
        now - (hours : Int) * 3600 ≤ r.timestamp) = [] := by
      rw [List.filter_eq_nil_iff]
      intro r hr hp
      simp only [Bool.and_eq_true, beq_iff_eq, decide_eq_true_eq] at hp
      exact hnone ⟨r, hr, hp.1, hp.2⟩
    rw [hfil]
    rfl

theorem slotTimestamp_in_window (now : Int) (hours : Nat) (i : Nat)
    (hi : i < hours) :
    now - (hours : Int) * 3600 ≤ slotTimestamp now hours i := by
  unfold slotTimestamp
  rw [renderHourBucket_eq_ediv]
  have h1 : (i : Int) < (hours : Int) := by exact_mod_cast hi
  have h0 : (0 : Int) ≤ (i : Int) := Int.ofNat_nonneg i
  omega

theorem dictLookup_get_history_eq_some {s : Store} (hku : KeyUnique s)
    {h : String} {hours : Nat} {now b : Int} {st : Bool}
    (hmem : (⟨h, b, st⟩ : UptimeRecord) ∈ s)
    (hwin : now - (hours : Int) * 3600 ≤ b) :
    dictLookup (get_history s h hours now) b = some st := by
  have hh : (b, st) ∈ (get_history s h hours now).reverse := by
    rw [List.mem_reverse, mem_get_history]
    exact ⟨hmem, hwin⟩
  unfold dictLookup
  have hsome : ((get_history s h hours now).reverse.find?
      (fun p => p.1 == b)).isSome := by
    rw [List.find?_isSome]
    exact ⟨(b, st), hh, by simp⟩
  obtain ⟨p, hp⟩ := Option.isSome_iff_exists.mp hsome
  obtain ⟨pts, pst⟩ := p
  have hpb : pts = b := by
    have := List.find?_some hp
    simpa using this
  subst hpb
  have hpmem : (pts, pst) ∈ get_history s h hours now := by
    have := List.mem_of_find?_eq_some hp
    rwa [List.mem_reverse] at this
  rw [mem_get_history] at hpmem
  have heq : (⟨h, pts, pst⟩ : UptimeRecord) = ⟨h, pts, st⟩ :=
    keyUnique_of_mem hku hpmem.1 hmem rfl rfl
  have hst : pst = st := by
    injection heq
  rw [hp]
  simp [hst]

theorem dictLookup_get_history_eq_none {s : Store}
    {h : String} {hours : Nat} {now b : Int}
    (hnone : ∀ st : Bool, (⟨h, b, st⟩ : UptimeRecord) ∉ s) :
    dictLookup (get_history s h hours now) b = none := by
  unfold dictLookup
  have hfind : (get_history s h hours now).reverse.find?
      (fun p => p.1 == b) = none := by
    rw [List.find?_eq_none]
    intro p hp hpb
    obtain ⟨pts, pst⟩ := p
    simp only [beq_iff_eq] at hpb
    subst hpb
    rw [List.mem_reverse, mem_get_history] at hp
    exact hnone pst hp.1
  rw [hfind]
  rfl

/-- C2 (amended): when the host has at least one record inside the window,
the render has length exactly `windowHours` and slot `i` (oldest first) is
up/down according to the store's record at the bucket of
`now - (windowHours-1-i)*3600`, or unknown when no such record exists; the
empty-render marker is returned exactly when the host has no record inside
the window (not merely when it has zero records overall). -/
theorem get_uptime_emoji_window (s : Store) (h : String) (hours : Nat)
    (now : Int) (hpos : 0 < hours) (hku : KeyUnique s) :
    (get_uptime_emoji s h hours now = [] ↔
      ¬∃ r, r ∈ s ∧ r.hostname = h ∧
        now - (hours : Int) * 3600 ≤ r.timestamp) ∧
    ((∃ r, r ∈ s ∧ r.hostname = h ∧
        now - (hours : Int) * 3600 ≤ r.timestamp) →
      (get_uptime_emoji s h hours now).length = hours ∧
      ∀ i : Nat, i < hours →
        (∀ st : Bool,
          (⟨h, slotTimestamp now hours i, st⟩ : UptimeRecord) ∈ s →
          (get_uptime_emoji s h hours now).getD i Tri.unknown =
            (if st then Tri.up else Tri.down)) ∧
        ((∀ st : Bool,
            (⟨h, slotTimestamp now hours i, st⟩ : UptimeRecord) ∉ s) →
          (get_uptime_emoji s h hours now).getD i Tri.unknown =
            Tri.unknown)) := by
  by_cases hdata : ∃ r, r ∈ s ∧ r.hostname = h ∧
      now - (hours : Int) * 3600 ≤ r.timestamp
  · have hhist : get_history s h hours now ≠ [] := by
      intro hnil
      exact (get_history_eq_nil_iff s h hours now).mp hnil hdata
    have hemp : (get_history s h hours now).isEmpty = false := by
      rw [← Bool.not_eq_true, List.isEmpty_iff]
      exact hhist
    have hrender : get_uptime_emoji s h hours now =
        (List.range hours).map (fun i =>
          match dictLookup (get_history s h hours now)
              (slotTimestamp now hours i) with
          | some status => if status then Tri.up else Tri.down
          | none => Tri.unknown) := by
      unfold get_uptime_emoji
      rw [hemp]
      rfl
    have hlen : (get_uptime_emoji s h hours now).length = hours := by
      rw [hrender, List.length_map, List.length_range]
    constructor
    · constructor
      · intro hnil
        rw [hnil] at hlen
        simp at hlen
        omega
      · intro hn
        exact absurd hdata hn
    · intro _
      refine ⟨hlen, ?_⟩
      intro i hi
      have hget : (get_uptime_emoji s h hours now).getD i Tri.unknown =
          match dictLookup (get_history s h hours now)
              (slotTimestamp now hours i) with
          | some status => if status then Tri.up else Tri.down
          | none => Tri.unknown := by
        rw [hrender]
        simp [List.getD_eq_getElem?_getD, List.getElem?_map,
          List.getElem?_range, hi]
      constructor
      · intro st hst
        rw [hget, dictLookup_get_history_eq_some hku hst
          (slotTimestamp_in_window now hours i hi)]
      · intro hnone
        rw [hget, dictLookup_get_history_eq_none hnone]
  · have hhist : get_history s h hours now = [] :=
      (get_history_eq_nil_iff s h hours now).mpr hdata
    have hrender : get_uptime_emoji s h hours now = [] := by
      unfold get_uptime_emoji
      rw [hhist]
      rfl
    constructor
    · constructor
      · intro _
        exact hdata
      · intro _
        exact hrender
    · intro hd
      exact absurd hd hdata

/-- C2 counterexample for the claim as stated: a host whose only record is
strictly older than the 48-hour window has nonzero records, yet
`get_uptime_emoji` returns the empty marker instead of a 48-symbol
sequence. -/
theorem get_uptime_emoji_stale_counterexample :
    ([⟨"a", 0, true⟩] : Store) ≠ [] ∧
    get_uptime_emoji [⟨"a", 0, true⟩] "a" 48 1000000 = [] := by
  constructor
  · decide
  · rfl

/-- Concrete store for the C2 witness: host "a" up at bucket 993600 (the
hour bucket of `1000000 - 3600`) and down at bucket 979200 (the hour bucket
of `1000000 - 5*3600`). -/
def exampleStore : Store := [⟨"a", 993600, true⟩, ⟨"a", 979200, false⟩]

/-- Witness for C2 (amended) at concrete inputs. -/
theorem get_uptime_emoji_window_witness :
    0 < 48 ∧ KeyUnique exampleStore ∧
    (get_uptime_emoji exampleStore ("a") 48 1000000).length = 48 :=
  ⟨by decide, by decide,
    ((get_uptime_emoji_window exampleStore ("a") 48 1000000 (by decide)
        (by decide)).2
      ⟨⟨"a", 993600, true⟩, by decide, rfl, by decide⟩).1⟩

/-! ## Claims C5 and C10: the status cache -/

/-- A concrete snapshot for evaluating the cache model. -/
def exampleInfo : SysInfo :=
  ⟨"host-a", "10.0.0.1", "SomeCPU", "3.0%", "16G", "4G", "100G", "40%",
    "120", "0.50", true⟩

/-- C5 counterexample for the claim as stated: with the default
`UPDATE_INTERVAL = 60`, a cache entry captured at time 0 serves a first call
at time 59 (no probe), but a second call at time 60 — just 1 second later,
well within the max-age, with `refresh = False` — finds the entry expired
and does invoke the monitor, contradicting "the second call returns the
cached entry without a probe". -/
theorem getStatus_second_call_probes_counterexample :
    (60 : Int) - 59 < 60 ∧
    (getStatus (some ⟨some exampleInfo, 0⟩) 59 false none 60).2.2 = false ∧
    (getStatus
        (some (getStatus (some ⟨some exampleInfo, 0⟩) 59 false none 60).2.1)
        60 false none 60).2.2 = true := by
  refine ⟨by decide, ?_, ?_⟩ <;> decide

/-- C5 (amended): two `forceRefresh = false` calls within the configured
max-age of each other invoke the monitor at most once; when the first call
probed, the second returns the first call's cached result without probing
(the second call probes only if the entry serving the first call has itself
expired by the second call's time); and a `forceRefresh = true` call always
invokes the monitor and overwrites the entry with the new capture
timestamp. -/
theorem getStatus_spec (c : Option CacheEntry) (now : Int) (refresh : Bool)
    (p : Option SysInfo) (ui : Int) :
    (∃ e, c = some e ∧ refresh = false ∧ now - e.timestamp < ui ∧
      getStatus c now refresh p ui = (e.info, e, false)) ∨
    (getStatus c now refresh p ui = (p, ⟨p, now⟩, true) ∧
      ∀ e, c = some e → refresh = true ∨ ¬(now - e.timestamp < ui)) := by
  match c with
  | none =>
    right
    exact ⟨rfl, fun e he => by cases he⟩
  | some e =>
    cases refresh with
    | true =>
      right
      refine ⟨?_, fun e' _ => Or.inl rfl⟩
      simp [getStatus]
    | false =>
      by_cases hfr : now - e.timestamp < ui
      · left
        exact ⟨e, rfl, rfl, hfr, by simp [getStatus, hfr]⟩
      · right
        refine ⟨by simp [getStatus, hfr], fun e' he' => ?_⟩
        injection he' with he'
        subst he'
        exact Or.inr hfr

theorem statusCache_at_most_one_probe (c0 : Option CacheEntry)
    (t1 t2 : Int) (p1 p2 : Option SysInfo) (update_interval : Int)
    (hfresh : t2 - t1 < update_interval) :
    (¬((getStatus c0 t1 false p1 update_interval).2.2 = true ∧
       (getStatus (some (getStatus c0 t1 false p1 update_interval).2.1)
         t2 false p2 update_interval).2.2 = true)) ∧
    ((getStatus c0 t1 false p1 update_interval).2.2 = true →
      (getStatus (some (getStatus c0 t1 false p1 update_interval).2.1)
          t2 false p2 update_interval).2.2 = false ∧
      (getStatus (some (getStatus c0 t1 false p1 update_interval).2.1)
          t2 false p2 update_interval).1 = p1) ∧
    (∀ (c : Option CacheEntry) (now : Int) (p : Option SysInfo),
      (getStatus c now true p update_interval).2.2 = true ∧
      (getStatus c now true p update_interval).2.1 = ⟨p, now⟩) := by
  refine ⟨?_, ?_, ?_⟩
  · rintro ⟨hp1, hp2⟩
    rcases getStatus_spec c0 t1 false p1 update_interval with
      ⟨e, _, _, _, heq⟩ | ⟨heq, _⟩
    · rw [heq] at hp1
      exact absurd hp1 (by simp)
    · rw [heq] at hp2
      rcases getStatus_spec (some (⟨p1, t1⟩ : CacheEntry)) t2 false p2
          update_interval with ⟨e2, _, _, _, heq2⟩ | ⟨_, hcond⟩
      · rw [heq2] at hp2
        exact absurd hp2 (by simp)
      · rcases hcond ⟨p1, t1⟩ rfl with hr | hst
        · exact absurd hr (by simp)
        · exact hst hfresh
  · intro hp1
    rcases getStatus_spec c0 t1 false p1 update_interval with
      ⟨e, _, _, _, heq⟩ | ⟨heq, _⟩
    · rw [heq] at hp1
      exact absurd hp1 (by simp)
    · rw [heq]
      rcases getStatus_spec (some (⟨p1, t1⟩ : CacheEntry)) t2 false p2
          update_interval with ⟨e2, he2, _, _, heq2⟩ | ⟨_, hcond⟩
      · injection he2 with he2
        subst he2
        rw [heq2]
        exact ⟨rfl, rfl⟩
      · rcases hcond ⟨p1, t1⟩ rfl with hr | hst
        · exact absurd hr (by simp)
        · exact absurd hfresh hst
  · intro c now p
    rcases getStatus_spec c now true p update_interval with
      ⟨e, _, hrf, _, _⟩ | ⟨heq, _⟩
    · exact absurd hrf (by simp)
    · rw [heq]
      exact ⟨rfl, rfl⟩

/-- Witness for C5 (amended) at concrete inputs: empty initial cache, first
call at time 0 probes, second call at time 30 (max-age 60) does not. -/
theorem statusCache_at_most_one_probe_witness :
    (30 : Int) - 0 < 60 ∧
    ((getStatus none 0 false (some exampleInfo) 60).2.2 = true →
      (getStatus (some (getStatus none 0 false (some exampleInfo) 60).2.1)
          30 false none 60).2.2 = false ∧
      (getStatus (some (getStatus none 0 false (some exampleInfo) 60).2.1)
          30 false none 60).1 = some exampleInfo) :=
  ⟨by decide,
    (statusCache_at_most_one_probe none 0 30 (some exampleInfo) none 60
      (by decide)).2.1⟩

/-- C10: a refresh whose probe returns `None` caches the `None` with its
capture timestamp exactly like a snapshot, and a later `get()` within the
max-age with `forceRefresh = false` returns the cached `None` without
invoking the monitor again, whatever that probe would have returned. -/
theorem statusCache_caches_absent (c0 : Option CacheEntry)
    (t1 t2 : Int) (update_interval : Int) (refresh1 : Bool)
    (p2 : Option SysInfo)
    (hprobe : (getStatus c0 t1 refresh1 none update_interval).2.2 = true)
    (hfresh : t2 - t1 < update_interval) :
    (getStatus c0 t1 refresh1 none update_interval).2.1 = ⟨none, t1⟩ ∧
    getStatus (some (⟨none, t1⟩ : CacheEntry)) t2 false p2 update_interval =
      (none, ⟨none, t1⟩, false) := by
  constructor
  · rcases getStatus_spec c0 t1 refresh1 none update_interval with
      ⟨e, _, _, _, heq⟩ | ⟨heq, _⟩
    · rw [heq] at hprobe
      exact absurd hprobe (by simp)
    · rw [heq]
  · simp [getStatus, hfresh]

/-- Witness for C10 at concrete inputs: a failed probe at time 0 is cached
as `None`, and a call at time 30 (max-age 60) returns it without probing. -/
theorem statusCache_caches_absent_witness :
    (getStatus none 0 false none 60).2.2 = true ∧
    (30 : Int) - 0 < 60 ∧
    ((getStatus none 0 false none 60).2.1 = ⟨none, 0⟩ ∧
      getStatus (some (⟨none, 0⟩ : CacheEntry)) 30 false
          (some exampleInfo) 60 =
        (none, ⟨none, 0⟩, false)) :=
  ⟨by decide, by decide,
    statusCache_caches_absent none 0 30 60 false (some exampleInfo)
      (by decide) (by decide)⟩

/-! ## Claim C6: host configuration validation -/

theorem validateGo_sublist (hosts : List HostEntry) (seen : List String) :
    (validateGo hosts seen).Sublist hosts := by
  induction hosts generalizing seen with
  | nil => exact List.Sublist.refl []
  | cons host rest ih =>
    unfold validateGo
    by_cases h1 : !truthy host.name || !truthy host.ip || !truthy host.ssh_user
    · rw [if_pos h1]
      exact (ih seen).cons host
    · rw [if_neg h1]
      by_cases h2 : seen.contains (host.name.getD (""))
      · rw [if_pos h2]
        exact (ih seen).cons host
      · rw [if_neg h2]
        by_cases h3 : !truthy host.ssh_key_path && !truthy host.ssh_password
        · rw [if_pos h3]
          exact (ih seen).cons host
        · rw [if_neg h3]
          exact (ih _).cons₂ host

theorem validateGo_ok_and_fresh (hosts : List HostEntry) (seen : List String) :
    ∀ h ∈ validateGo hosts seen,
      entryOk h = true ∧ h.name.getD ("") ∉ seen := by
  induction hosts generalizing seen with
  | nil => intro h hh; cases hh
  | cons host rest ih =>
    intro h hh
    unfold validateGo at hh
    by_cases h1 : !truthy host.name || !truthy host.ip || !truthy host.ssh_user
    · rw [if_pos h1] at hh
      exact ih seen h hh
    · rw [if_neg h1] at hh
      by_cases h2 : seen.contains (host.name.getD (""))
      · rw [if_pos h2] at hh
        exact ih seen h hh
      · rw [if_neg h2] at hh
        by_cases h3 : !truthy host.ssh_key_path && !truthy host.ssh_password
        · rw [if_pos h3] at hh
          exact ih seen h hh
        · rw [if_neg h3] at hh
          rcases List.mem_cons.mp hh with heq | htail
          · subst heq
            constructor
            · simp only [Bool.or_eq_true, Bool.not_eq_true'] at h1
              push_neg at h1
              obtain ⟨⟨hn, hi⟩, hu⟩ := h1
              simp only [Bool.and_eq_true, Bool.not_eq_true'] at h3
              unfold entryOk
              simp only [Bool.and_eq_true, Bool.or_eq_true]
              refine ⟨⟨⟨Bool.ne_false_iff.mp hn, Bool.ne_false_iff.mp hi⟩,
                Bool.ne_false_iff.mp hu⟩, ?_⟩
              rcases Bool.eq_false_or_eq_true (truthy h.ssh_key_path) with
                hk | hk
              · exact Or.inl hk
              · rcases Bool.eq_false_or_eq_true (truthy h.ssh_password) with
                  hp | hp
                · exact Or.inr hp
                · exact absurd ⟨hk, hp⟩ h3
            · intro hmem
              exact h2 (List.elem_iff.mpr hmem)
          · have := ih (host.name.getD ("") :: seen) h htail
            exact ⟨this.1, fun hmem => this.2 (List.mem_cons_of_mem _ hmem)⟩

theorem validateGo_names_pairwise (hosts : List HostEntry)
    (seen : List String) :
    (validateGo hosts seen).Pairwise
      (fun a b => a.name.getD ("") ≠ b.name.getD ("")) := by
  induction hosts generalizing seen with
  | nil => exact List.Pairwise.nil
  | cons host rest ih =>
    unfold validateGo
    by_cases h1 : !truthy host.name || !truthy host.ip || !truthy host.ssh_user
    · rw [if_pos h1]; exact ih seen
    · rw [if_neg h1]
      by_cases h2 : seen.contains (host.name.getD (""))
      · rw [if_pos h2]; exact ih seen
      · rw [if_neg h2]
        by_cases h3 : !truthy host.ssh_key_path && !truthy host.ssh_password
        · rw [if_pos h3]; exact ih seen
        · rw [if_neg h3]
          refine List.Pairwise.cons ?_ (ih _)
          intro g hg heq
          have := (validateGo_ok_and_fresh rest
            (host.name.getD ("") :: seen) g hg).2
          exact this (by rw [← heq]; exact List.mem_cons_self _ _)

theorem validateGo_complete (hosts : List HostEntry) (seen : List String)
    (h : HostEntry) (hok : entryOk h = true) (hmem : h ∈ hosts)
    (huniq : ∀ g ∈ hosts, g.name.getD ("") = h.name.getD ("") → g = h)
    (hseen : h.name.getD ("") ∉ seen) :
    h ∈ validateGo hosts seen := by
  induction hosts generalizing seen with
  | nil => cases hmem
  | cons host rest ih =>
    unfold entryOk at hok
    simp only [Bool.and_eq_true, Bool.or_eq_true] at hok
    by_cases hhead : host = h
    · subst hhead
      unfold validateGo
      rw [if_neg (by simp [hok.1.1.1, hok.1.1.2, hok.1.2])]
      rw [if_neg (by
        intro hc
        exact hseen (List.elem_iff.mp hc))]
      rw [if_neg (by
        simp only [Bool.and_eq_true, Bool.not_eq_true']
        rintro ⟨hk, hp⟩
        rcases hok.2 with hk' | hp'
        · rw [hk] at hk'; cases hk'
        · rw [hp] at hp'; cases hp')]
      exact List.mem_cons_self _ _
    · have hmem' : h ∈ rest := by
        rcases List.mem_cons.mp hmem with heq | ht
        · exact absurd heq.symm hhead
        · exact ht
      have hname : host.name.getD ("") ≠ h.name.getD ("") := by
        intro heq
        exact hhead (huniq host (List.mem_cons_self _ _) heq)
      have huniq' : ∀ g ∈ rest, g.name.getD ("") = h.name.getD ("") → g = h :=
        fun g hg => huniq g (List.mem_cons_of_mem _ hg)
      unfold validateGo
      by_cases h1 : !truthy host.name || !truthy host.ip || !truthy host.ssh_user
      · rw [if_pos h1]
        exact ih seen hmem' huniq' hseen
      · rw [if_neg h1]
        by_cases h2 : seen.contains (host.name.getD (""))
        · rw [if_pos h2]
          exact ih seen hmem' huniq' hseen
        · rw [if_neg h2]
          by_cases h3 : !truthy host.ssh_key_path && !truthy host.ssh_password
          · rw [if_pos h3]
            exact ih seen hmem' huniq' hseen
          · rw [if_neg h3]
            refine List.mem_cons_of_mem _ (ih _ hmem' huniq' ?_)
            intro hc
            rcases List.mem_cons.mp hc with heq | ht
            · exact hname heq.symm
            · exact hseen ht

/-- C6 (amended): validation keeps a subsequence of the input; every kept
entry has all required fields and an auth method; kept entries have pairwise
distinct names; and every entry that passes the per-entry checks and whose
name no other input entry shares is kept — so an invalid entry is dropped
individually and is never fatal to the rest. (The duplicate-name check is
against previously *retained* entries: a name used only by an earlier
*dropped* entry does not disqualify a later valid entry.) -/
theorem validate_hosts_correct (hosts : List HostEntry) :
    (validate_hosts hosts).Sublist hosts ∧
    (∀ h ∈ validate_hosts hosts, entryOk h = true) ∧
    (validate_hosts hosts).Pairwise
      (fun a b => a.name.getD ("") ≠ b.name.getD ("")) ∧
    (∀ h ∈ hosts, entryOk h = true →
      (∀ g ∈ hosts, g.name.getD ("") = h.name.getD ("") → g = h) →
      h ∈ validate_hosts hosts) := by
  refine ⟨validateGo_sublist hosts [], ?_, validateGo_names_pairwise hosts [],
    ?_⟩
  · intro h hh
    exact (validateGo_ok_and_fresh hosts [] h hh).1
  · intro h hmem hok huniq
    exact validateGo_complete hosts [] h hok hmem huniq (by simp)

/-- Host entry with no auth method (invalid), name "a". -/
def exNoAuth : HostEntry :=
  ⟨some ("a"), some ("10.0.0.1"), some ("root"), none, none⟩

/-- Fully valid host entry that reuses the name "a". -/
def exFull : HostEntry :=
  ⟨some ("a"), some ("10.0.0.2"), some ("root"), some ("/home/u/.ssh/id"), none⟩

/-- C6 counterexample for the claim as stated: `exFull`'s name duplicates
the name of the earlier entry `exNoAuth`, so per the claim it should be
dropped, but the code retains it — the duplicate check only tracks names of
previously accepted entries, and `exNoAuth` was dropped for missing auth. -/
theorem validate_hosts_duplicate_counterexample :
    exNoAuth.name = exFull.name ∧
    validate_hosts [exNoAuth, exFull] = [exFull] := by
  constructor
  · rfl
  · rfl

/-- Witness for C6 (amended) at concrete inputs: a single valid entry is
retained. -/
theorem validate_hosts_correct_witness :
    exFull ∈ ([exFull] : List HostEntry) ∧ entryOk exFull = true ∧
    exFull ∈ validate_hosts [exFull] :=
  ⟨by decide, by decide,
    (validate_hosts_correct [exFull]).2.2.2 exFull (by decide) (by decide)
      (by decide)⟩

/-! ## Claims C7, C8, C9: the monitors -/

/-- C7: on a connection failure with diagnostic `d`, the remote fetch
returns the Absent result (`None`) without an exception, and the diagnostic
is captured on the call's `SSHClient` — but it is *not* attached to the
`ServerMonitor`: the class never assigns a `last_error` attribute, so the
`getattr(monitor, "last_error", None)` read in `bot.py` always yields
`None` and the diagnostic can never be rendered. This demonstrates the code
defect behind the claim. -/
theorem remote_connect_failure_diagnostic (m : ServerMonitor) (d : String)
    (cmds : RemoteCmds) :
    (ServerMonitor.get_system_info m (.fail d) cmds).1 = none ∧
    (ServerMonitor.get_system_info m (.fail d) cmds).2.last_error = some d ∧
    ServerMonitor.lastErrorAttr m = none := by
  refine ⟨?_, ?_, rfl⟩ <;>
    simp [ServerMonitor.get_system_info, sshConnect, sshInit]

/-- C8: the local monitor is never unreachable (`check_online` is `True`
unconditionally) and its fetch always returns a snapshot — never `None` —
whose every field is its facility's value when the facility succeeded and
the documented fallback when it failed; moreover one field's raw value
influences no other field (a failure degrades only that field). -/
theorem localMonitor_never_absent (name ip : String) (raw : LocalRaw) :
    LocalMonitor.check_online = true ∧
    (∃ info : SysInfo, LocalMonitor.get_system_info name ip raw = some info ∧
      info.online = true ∧
      info.cpu_model = localField raw.cpu_model ("Unknown") ∧
      info.cpu_usage = localField raw.cpu_usage ("N/A") ∧
      info.ram_total = localField raw.ram_total ("N/A") ∧
      info.ram_used = localField raw.ram_used ("N/A") ∧
      info.disk_total = localField raw.disk_total ("N/A") ∧
      info.disk_usage = localField raw.disk_usage ("N/A") ∧
      info.process_count = localField raw.process_count ("N/A") ∧
      info.load_average = localField raw.load_average ("N/A")) ∧
    (∀ v : Option String,
      (LocalMonitor.get_system_info name ip
          { raw with cpu_usage := v }).map SysInfo.ram_total =
        (LocalMonitor.get_system_info name ip raw).map SysInfo.ram_total ∧
      (LocalMonitor.get_system_info name ip
          { raw with cpu_usage := v }).map SysInfo.process_count =
        (LocalMonitor.get_system_info name ip raw).map
          SysInfo.process_count) := by
  refine ⟨rfl, ⟨_, rfl, rfl, rfl, rfl, rfl, rfl, rfl, rfl, rfl, rfl⟩, ?_⟩
  intro v
  exact ⟨rfl, rfl⟩

/-- Command results for evaluating the remote monitor at a concrete input. -/
def exCmds : RemoteCmds :=
  ⟨⟨true, "SomeCPU"⟩, ⟨true, "3.0"⟩, some ("3.0%"), ⟨true, "16G"⟩,
    ⟨true, "4G"⟩, ⟨true, "100G"⟩, ⟨true, "40%"⟩, ⟨true, "121"⟩,
    some ("120"), ⟨true, "0.50"⟩⟩

/-- A concrete remote monitor for the C9 counterexample. -/
def exMonitor : ServerMonitor :=
  ⟨"web-1", "10.0.0.5", "root", some ("/home/u/.ssh/id"), none⟩

/-- C9 counterexample for the claim as stated: when the connect step of
`get_system_info` fails, the call returns with the `SSHClient` object it
allocated still held (`client` not cleared) — `close()` is never invoked on
that exit path, so the session opened for the call is not closed. -/
theorem ssh_session_leak_counterexample :
    (ServerMonitor.get_system_info exMonitor
      (.fail ("Authentication failed")) exCmds).2.client = true := by
  rfl

/-- C9 (amended): after a successful connect, `get_system_info` releases
the session on its exit paths (the `finally` block), whatever the field
commands returned; `check_online` releases the session on every path,
connect failure included; but `get_system_info`'s connect-failure path
returns without closing, leaving the call's client held. -/
theorem ssh_session_release (m : ServerMonitor) (cmds : RemoteCmds)
    (outcome : ConnectOutcome) (d : String) :
    (ServerMonitor.get_system_info m .ok cmds).2.client = false ∧
    (ServerMonitor.check_online m outcome).2.client = false ∧
    (ServerMonitor.get_system_info m (.fail d) cmds).2.client = true := by
  refine ⟨rfl, ?_, rfl⟩
  cases outcome <;> rfl

end Uptimer
